import Mathlib

/-!
Verification of the device-enumeration program (`src/main.rs`) against its
natural-language specification.

The program is shallowly embedded: the OS calls (`OpenProcessToken`,
`GetTokenInformation`, `CloseHandle`, `SetupDiGetClassDevsA`,
`SetupDiEnumDeviceInfo`, `SetupDiGetDeviceRegistryPropertyA`) are oracles
supplied as parameters, and every function of the program becomes a Lean
function of those oracles.  Machine integers are modelled as `Nat`/`Int`;
the program performs no arithmetic on them other than formatting, so no
wraparound is ever reachable.  Rust strings (sequences of Unicode scalar
values) are modelled as Lean `String`.
-/

namespace PrintGuid

/-- Models Rust's `str::starts_with` on char sequences:
`startsWith needle hay` is true when `needle` is an initial segment of `hay`. -/
def startsWith : List Char → List Char → Bool
  | [], _ => true
  | _ :: _, [] => false
  | a :: as, b :: bs => a == b && startsWith as bs

/-- Models Rust's `str::contains` with a string pattern:
`containsSub needle hay` is true when `needle` occurs as a contiguous
subsequence of `hay`. -/
def containsSub : List Char → List Char → Bool
  | needle, [] => needle.isEmpty
  | needle, hay@(_ :: rest) => startsWith needle hay || containsSub needle rest

/-- Models Rust's `hay.contains(needle)` as `strContains hay needle`. -/
def strContains (hay needle : String) : Bool :=
  containsSub needle.data hay.data

/-- The Unicode replacement character U+FFFD used by lossy UTF-8 decoding. -/
def repl : Char := Char.ofNat 0xFFFD

/-- Is `b` a UTF-8 continuation byte (`0x80..=0xBF`)? -/
def isCont (b : Nat) : Bool := 0x80 ≤ b && b ≤ 0xBF

/-- Is `b1` an admissible second byte after the three-byte starter `b`?
(`E0` requires `A0..BF`, `ED` requires `80..9F` — excluding overlong forms
and surrogates — the rest take any continuation byte.) -/
def cont3 (b b1 : Nat) : Bool :=
  (b == 0xE0 && (0xA0 ≤ b1 && b1 ≤ 0xBF)) ||
  (b == 0xED && (0x80 ≤ b1 && b1 ≤ 0x9F)) ||
  (b != 0xE0 && b != 0xED && isCont b1)

/-- Is `b1` an admissible second byte after the four-byte starter `b`?
(`F0` requires `90..BF`, `F4` requires `80..8F` — excluding overlong forms
and values above U+10FFFF — the rest take any continuation byte.) -/
def cont4 (b b1 : Nat) : Bool :=
  (b == 0xF0 && (0x90 ≤ b1 && b1 ≤ 0xBF)) ||
  (b == 0xF4 && (0x80 ≤ b1 && b1 ≤ 0x8F)) ||
  (b != 0xF0 && b != 0xF4 && isCont b1)

/-- Models Rust's `String::from_utf8_lossy` on a byte sequence: decode UTF-8,
replacing each maximal invalid subpart by one U+FFFD, per the WHATWG
"substitution of maximal subparts" policy that Rust implements
(ASCII; 2-byte `C2..DF`; 3-byte `E0/A0..BF`, `E1..EC,EE,EF/80..BF`,
`ED/80..9F`; 4-byte `F0/90..BF`, `F1..F3/80..BF`, `F4/80..8F`). -/
def utf8Lossy : List Nat → List Char
  | [] => []
  | b :: rest =>
    if b < 0x80 then
      Char.ofNat b :: utf8Lossy rest
    else if b < 0xC2 then
      -- continuation byte or overlong starter: invalid, consume one byte
      repl :: utf8Lossy rest
    else if b ≤ 0xDF then
      match rest with
      | [] => [repl]
      | b1 :: rest1 =>
        if isCont b1 then
          Char.ofNat ((b - 0xC0) * 0x40 + (b1 - 0x80)) :: utf8Lossy rest1
        else
          repl :: utf8Lossy (b1 :: rest1)
    else if b ≤ 0xEF then
      match rest with
      | [] => [repl]
      | b1 :: rest1 =>
        if cont3 b b1 then
          match rest1 with
          | [] => [repl]
          | b2 :: rest2 =>
            if isCont b2 then
              Char.ofNat ((b - 0xE0) * 0x1000 + (b1 - 0x80) * 0x40 + (b2 - 0x80)) ::
                utf8Lossy rest2
            else
              repl :: utf8Lossy (b2 :: rest2)
        else
          repl :: utf8Lossy (b1 :: rest1)
    else if b ≤ 0xF4 then
      match rest with
      | [] => [repl]
      | b1 :: rest1 =>
        if cont4 b b1 then
          match rest1 with
          | [] => [repl]
          | b2 :: rest2 =>
            if isCont b2 then
              match rest2 with
              | [] => [repl]
              | b3 :: rest3 =>
                if isCont b3 then
                  Char.ofNat ((b - 0xF0) * 0x40000 + (b1 - 0x80) * 0x1000 +
                      (b2 - 0x80) * 0x40 + (b3 - 0x80)) :: utf8Lossy rest3
                else
                  repl :: utf8Lossy (b3 :: rest3)
            else
              repl :: utf8Lossy (b2 :: rest2)
        else
          repl :: utf8Lossy (b1 :: rest1)
    else
      -- F5..FF: invalid starter
      repl :: utf8Lossy rest

/-- The device record built per enumerated entry (`struct WinDev`).
`guid` models the `u128` produced by `ClassGuid.to_u128()`. -/
structure WinDev where
  fname : Option String
  desc : Option String
  guid : Nat

/-- Renders `n` the way Rust's alternate lowercase-hex format specifier
does for an unsigned integer: `0x` followed by lowercase hex digits,
`0x0` for zero, no padding. -/
def hexFmt (n : Nat) : String :=
  "0x" ++ String.mk (Nat.toDigits 16 n)

/-- The `Display` implementation for `WinDev`: a separator line, name
(placeholder `"Unkown"` when absent — the source's spelling), description
(placeholder `"None"` when absent), decimal GUID, hex GUID, closing
separator. -/
def WinDev.display (d : WinDev) : String :=
  let fname := d.fname.getD "Unkown"
  let desc := d.desc.getD "None"
  "---------------------------\nDev Name: " ++ fname ++ "\nDev Desc: " ++ desc ++
    "\nGUID: " ++ Nat.repr d.guid ++ "\nGUID (hex): " ++ hexFmt d.guid ++
    "\n---------------------------"

/-- The outcome of one `SetupDiGetDeviceRegistryPropertyA` call, as an oracle:
given the caller's buffer it either fails (`none`) or succeeds and returns the
buffer's contents after the call (`some bytes`). -/
def PropCall : Type := List Nat → Option (List Nat)

/-- Function `get_fname`: allocate a 256-byte zeroed buffer, ask the OS to fill it with
the `SPDRP_FRIENDLYNAME` property; on failure return `Ok(None)`; on success
truncate at the first null byte and decode lossily. -/
def get_fname (call : PropCall) : Except String (Option String) :=
  let buffer : List Nat := List.replicate 256 0
  match call buffer with
  | none => .ok none
  | some buf =>
    let buffer :=
      match buf.findIdx? (fun b => b == 0) with
      | some nullPos => buf.take nullPos
      | none => buf
    .ok (some (String.mk (utf8Lossy buffer)))

/-- Function `get_desc`: identical to `get_fname` except that it queries
`SPDRP_DEVICEDESC`; the queried property kind lives in the oracle. -/
def get_desc (call : PropCall) : Except String (Option String) :=
  let buffer : List Nat := List.replicate 256 0
  match call buffer with
  | none => .ok none
  | some buf =>
    let buffer :=
      match buf.findIdx? (fun b => b == 0) with
      | some nullPos => buf.take nullPos
      | none => buf
    .ok (some (String.mk (utf8Lossy buffer)))

/-- Windows' `INVALID_HANDLE_VALUE` (`(HANDLE)-1`). -/
def invalidHandleValue : Int := -1

/-- Oracle for the three OS calls made by `is_root`:
`openToken` is `none` when `OpenProcessToken` fails and `some h` when it
succeeds writing handle `h`; `tokenInfo` is `none` when `GetTokenInformation`
fails and `some v` when it succeeds writing `TokenIsElevated = v`;
`closeOk` tells whether `CloseHandle` succeeds. -/
structure TokenOracle where
  openToken : Option Int
  tokenInfo : Option Nat
  closeOk : Bool

/-- Function `is_root`: the privilege check.  Returns the `Result<bool>` the Rust
function returns, paired with the list of handles passed to `CloseHandle`
(in call order), which lets us reason about release.  Mirrors the source:
`token` starts as `INVALID_HANDLE_VALUE`, `elevated` as `false`; on
`OpenProcessToken` success the elevation struct is queried and
`elevated = (TokenIsElevated != 0)` only if that query succeeds; then
`CloseHandle` runs iff `token != INVALID_HANDLE_VALUE`, and its failure
propagates through the `?` operator. -/
def is_root (o : TokenOracle) : Except String Bool × List Int :=
  let init : Int × Bool := (invalidHandleValue, false)
  let state :=
    match o.openToken with
    | some t =>
      (t, match o.tokenInfo with
          | some v => v != 0
          | none => false)
    | none => init
  let token := state.1
  let elevated := state.2
  if token = invalidHandleValue then
    (.ok elevated, [])
  else if o.closeOk then
    (.ok elevated, [token])
  else
    (.error "error closing handle", [token])

/-- The sentinel substring the enumeration loop looks for:
`ERROR_NO_MORE_ITEMS` as rendered inside a `windows::core::Error` message. -/
def sentinel : String := "0x80070103"

/-- One outcome of `SetupDiEnumDeviceInfo` at the current index: either a
device entry (its `ClassGuid` as `u128`, plus the two property-call oracles
for it) or an error with its rendered message. -/
inductive EnumStep where
  | ok (guid : Nat) (fnameCall : PropCall) (descCall : PropCall)
  | err (msg : String)

/-- The enumeration loop of `main`, driven by the successive outcomes of
`SetupDiEnumDeviceInfo`.  Returns `some (exitCode, printedLines)`; `none`
when the oracle list is shorter than the loop would run (the real loop only
stops on an error outcome).  An error whose rendered message contains the
sentinel breaks the loop with exit 0; any other error prints a diagnostic
and exits 1; a success prints the device block and continues. -/
def enumLoop : List EnumStep → Option (Nat × List String)
  | [] => none
  | .err msg :: _ =>
    if strContains msg sentinel then
      some (0, [])
    else
      some (1, ["Error occurred: " ++ msg])
  | .ok guid fnameCall descCall :: rest =>
    match get_fname fnameCall, get_desc descCall with
    | .ok fname, .ok desc =>
      let dev : WinDev := ⟨fname, desc, guid⟩
      match enumLoop rest with
      | none => none
      | some (code, out) => some (code, dev.display :: out)
    | _, _ => some (1, [])

/-- The whole-program environment: detected OS string, the `is_root` oracle,
the `SetupDiGetClassDevsA` outcome (error, or the returned `HDEVINFO`
handle), and the enumeration outcomes in index order. -/
structure MainEnv where
  os : String
  root : TokenOracle
  snapshot : Except String Int
  steps : List EnumStep

/-- Function `main`: OS check, privilege check, snapshot acquisition and validity
check, then the enumeration loop.  Result is `some (exitCode, printedLines)`
(`none` when the enumeration oracle runs out).  A `Result::Err` escaping
`main` through `?` makes the process exit with status 1. -/
def main (env : MainEnv) : Option (Nat × List String) :=
  if env.os ≠ "windows" then
    some (1, ["OS isn't windows!"])
  else
    match (is_root env.root).1 with
    | .error _ => some (1, [])
    | .ok elevated =>
      if !elevated then
        some (1, ["This program needs root priviledges"])
      else
        match env.snapshot with
        | .error _ => some (1, [])
        | .ok h =>
          if h = invalidHandleValue then
            some (1, ["Failed to get device list"])
          else
            enumLoop env.steps

/-- The payload of an always-`ok` property-reader result (both readers
return `Ok(...)` on every path). -/
def getOk : Except String (Option String) → Option String
  | .ok v => v
  | .error _ => none

/-- The message of the first error outcome the loop will hit, if any. -/
def firstErr : List EnumStep → Option String
  | [] => none
  | .err m :: _ => some m
  | .ok _ _ _ :: r => firstErr r

/-- Does the enumeration sequence end in the exhaustion sentinel?  True
exactly when the first error outcome's rendered message contains the
sentinel status code. -/
def loopExhausts : List EnumStep → Bool
  | [] => false
  | .err m :: _ => strContains m sentinel
  | .ok _ _ _ :: r => loopExhausts r

/-! ## Equation lemmas for `utf8Lossy`, one per reduction branch -/

theorem utf8Lossy_nil : utf8Lossy [] = [] := rfl

theorem utf8Lossy_ascii (b : Nat) (rest : List Nat) (h : b < 0x80) :
    utf8Lossy (b :: rest) = Char.ofNat b :: utf8Lossy rest := by
  rw [utf8Lossy.eq_def]; simp [h]

theorem utf8Lossy_badByte (b : Nat) (rest : List Nat)
    (h1 : ¬ b < 0x80) (h2 : b < 0xC2) :
    utf8Lossy (b :: rest) = repl :: utf8Lossy rest := by
  rw [utf8Lossy.eq_def]; simp [h1, h2]

theorem utf8Lossy_two_nil (b : Nat)
    (h1 : ¬ b < 0x80) (h2 : ¬ b < 0xC2) (h3 : b ≤ 0xDF) :
    utf8Lossy [b] = [repl] := by
  rw [utf8Lossy.eq_def]; simp [h1, h2, h3]

theorem utf8Lossy_two_ok (b b1 : Nat) (rest1 : List Nat)
    (h1 : ¬ b < 0x80) (h2 : ¬ b < 0xC2) (h3 : b ≤ 0xDF) (hc : isCont b1 = true) :
    utf8Lossy (b :: b1 :: rest1) =
      Char.ofNat ((b - 0xC0) * 0x40 + (b1 - 0x80)) :: utf8Lossy rest1 := by
  rw [utf8Lossy.eq_def]; simp [h1, h2, h3, hc]

theorem utf8Lossy_two_bad (b b1 : Nat) (rest1 : List Nat)
    (h1 : ¬ b < 0x80) (h2 : ¬ b < 0xC2) (h3 : b ≤ 0xDF) (hc : ¬ isCont b1 = true) :
    utf8Lossy (b :: b1 :: rest1) = repl :: utf8Lossy (b1 :: rest1) := by
  rw [utf8Lossy.eq_def]; simp [h1, h2, h3, hc]

theorem utf8Lossy_three_nil (b : Nat)
    (h1 : ¬ b < 0x80) (h2 : ¬ b < 0xC2) (h3 : ¬ b ≤ 0xDF) (h4 : b ≤ 0xEF) :
    utf8Lossy [b] = [repl] := by
  rw [utf8Lossy.eq_def]; simp [h1, h2, h3, h4]

theorem utf8Lossy_three_one (b b1 : Nat)
    (h1 : ¬ b < 0x80) (h2 : ¬ b < 0xC2) (h3 : ¬ b ≤ 0xDF) (h4 : b ≤ 0xEF)
    (hc : cont3 b b1 = true) :
    utf8Lossy [b, b1] = [repl] := by
  rw [utf8Lossy.eq_def]; simp [h1, h2, h3, h4, hc]

theorem utf8Lossy_three_ok (b b1 b2 : Nat) (rest2 : List Nat)
    (h1 : ¬ b < 0x80) (h2 : ¬ b < 0xC2) (h3 : ¬ b ≤ 0xDF) (h4 : b ≤ 0xEF)
    (hc : cont3 b b1 = true) (hc2 : isCont b2 = true) :
    utf8Lossy (b :: b1 :: b2 :: rest2) =
      Char.ofNat ((b - 0xE0) * 0x1000 + (b1 - 0x80) * 0x40 + (b2 - 0x80)) ::
        utf8Lossy rest2 := by
  rw [utf8Lossy.eq_def]; simp [h1, h2, h3, h4, hc, hc2]

theorem utf8Lossy_three_bad2 (b b1 b2 : Nat) (rest2 : List Nat)
    (h1 : ¬ b < 0x80) (h2 : ¬ b < 0xC2) (h3 : ¬ b ≤ 0xDF) (h4 : b ≤ 0xEF)
    (hc : cont3 b b1 = true) (hc2 : ¬ isCont b2 = true) :
    utf8Lossy (b :: b1 :: b2 :: rest2) = repl :: utf8Lossy (b2 :: rest2) := by
  rw [utf8Lossy.eq_def]; simp [h1, h2, h3, h4, hc, hc2]

theorem utf8Lossy_three_bad1 (b b1 : Nat) (rest1 : List Nat)
    (h1 : ¬ b < 0x80) (h2 : ¬ b < 0xC2) (h3 : ¬ b ≤ 0xDF) (h4 : b ≤ 0xEF)
    (hc : ¬ cont3 b b1 = true) :
    utf8Lossy (b :: b1 :: rest1) = repl :: utf8Lossy (b1 :: rest1) := by
  rw [utf8Lossy.eq_def]; simp [h1, h2, h3, h4, hc]

theorem utf8Lossy_four_nil (b : Nat)
    (h1 : ¬ b < 0x80) (h2 : ¬ b < 0xC2) (h3 : ¬ b ≤ 0xDF) (h4 : ¬ b ≤ 0xEF)
    (h5 : b ≤ 0xF4) :
    utf8Lossy [b] = [repl] := by
  rw [utf8Lossy.eq_def]; simp [h1, h2, h3, h4, h5]

theorem utf8Lossy_four_one (b b1 : Nat)
    (h1 : ¬ b < 0x80) (h2 : ¬ b < 0xC2) (h3 : ¬ b ≤ 0xDF) (h4 : ¬ b ≤ 0xEF)
    (h5 : b ≤ 0xF4) (hc : cont4 b b1 = true) :
    utf8Lossy [b, b1] = [repl] := by
  rw [utf8Lossy.eq_def]; simp [h1, h2, h3, h4, h5, hc]

theorem utf8Lossy_four_two (b b1 b2 : Nat)
    (h1 : ¬ b < 0x80) (h2 : ¬ b < 0xC2) (h3 : ¬ b ≤ 0xDF) (h4 : ¬ b ≤ 0xEF)
    (h5 : b ≤ 0xF4) (hc : cont4 b b1 = true) (hc2 : isCont b2 = true) :
    utf8Lossy [b, b1, b2] = [repl] := by
  rw [utf8Lossy.eq_def]; simp [h1, h2, h3, h4, h5, hc, hc2]

theorem utf8Lossy_four_ok (b b1 b2 b3 : Nat) (rest3 : List Nat)
    (h1 : ¬ b < 0x80) (h2 : ¬ b < 0xC2) (h3 : ¬ b ≤ 0xDF) (h4 : ¬ b ≤ 0xEF)
    (h5 : b ≤ 0xF4) (hc : cont4 b b1 = true) (hc2 : isCont b2 = true)
    (hc3 : isCont b3 = true) :
    utf8Lossy (b :: b1 :: b2 :: b3 :: rest3) =
      Char.ofNat ((b - 0xF0) * 0x40000 + (b1 - 0x80) * 0x1000 +
          (b2 - 0x80) * 0x40 + (b3 - 0x80)) :: utf8Lossy rest3 := by
  rw [utf8Lossy.eq_def]; simp [h1, h2, h3, h4, h5, hc, hc2, hc3]

theorem utf8Lossy_four_bad3 (b b1 b2 b3 : Nat) (rest3 : List Nat)
    (h1 : ¬ b < 0x80) (h2 : ¬ b < 0xC2) (h3 : ¬ b ≤ 0xDF) (h4 : ¬ b ≤ 0xEF)
    (h5 : b ≤ 0xF4) (hc : cont4 b b1 = true) (hc2 : isCont b2 = true)
    (hc3 : ¬ isCont b3 = true) :
    utf8Lossy (b :: b1 :: b2 :: b3 :: rest3) = repl :: utf8Lossy (b3 :: rest3) := by
  rw [utf8Lossy.eq_def]; simp [h1, h2, h3, h4, h5, hc, hc2, hc3]

theorem utf8Lossy_four_bad2 (b b1 b2 : Nat) (rest2 : List Nat)
    (h1 : ¬ b < 0x80) (h2 : ¬ b < 0xC2) (h3 : ¬ b ≤ 0xDF) (h4 : ¬ b ≤ 0xEF)
    (h5 : b ≤ 0xF4) (hc : cont4 b b1 = true) (hc2 : ¬ isCont b2 = true) :
    utf8Lossy (b :: b1 :: b2 :: rest2) = repl :: utf8Lossy (b2 :: rest2) := by
  rw [utf8Lossy.eq_def]; simp [h1, h2, h3, h4, h5, hc, hc2]

theorem utf8Lossy_four_bad1 (b b1 : Nat) (rest1 : List Nat)
    (h1 : ¬ b < 0x80) (h2 : ¬ b < 0xC2) (h3 : ¬ b ≤ 0xDF) (h4 : ¬ b ≤ 0xEF)
    (h5 : b ≤ 0xF4) (hc : ¬ cont4 b b1 = true) :
    utf8Lossy (b :: b1 :: rest1) = repl :: utf8Lossy (b1 :: rest1) := by
  rw [utf8Lossy.eq_def]; simp [h1, h2, h3, h4, h5, hc]

theorem utf8Lossy_tooBig (b : Nat) (rest : List Nat)
    (h1 : ¬ b < 0x80) (h2 : ¬ b < 0xC2) (h3 : ¬ b ≤ 0xDF) (h4 : ¬ b ≤ 0xEF)
    (h5 : ¬ b ≤ 0xF4) :
    utf8Lossy (b :: rest) = repl :: utf8Lossy rest := by
  rw [utf8Lossy.eq_def]; simp [h1, h2, h3, h4, h5]

/-- Lossy decoding never produces more characters than there are input bytes:
every emitted character consumes at least one byte. -/
theorem utf8Lossy_length (l : List Nat) : (utf8Lossy l).length ≤ l.length := by
  induction l using utf8Lossy.induct <;>
    simp_all [utf8Lossy_nil, utf8Lossy_ascii, utf8Lossy_badByte, utf8Lossy_two_nil,
      utf8Lossy_two_ok, utf8Lossy_two_bad, utf8Lossy_three_nil, utf8Lossy_three_one,
      utf8Lossy_three_ok, utf8Lossy_three_bad2, utf8Lossy_three_bad1,
      utf8Lossy_four_nil, utf8Lossy_four_one, utf8Lossy_four_two, utf8Lossy_four_ok,
      utf8Lossy_four_bad3, utf8Lossy_four_bad2, utf8Lossy_four_bad1,
      utf8Lossy_tooBig] <;> omega

/-! ## Decoded characters are never the null character -/

theorem toNat_ofNat_valid {n : Nat} (h : n.isValidChar) : (Char.ofNat n).toNat = n := by
  rw [Char.ofNat, dif_pos h]
  cases h with
  | inl h1 => simp [Char.ofNatAux, Char.toNat, UInt32.toNat]
  | inr h1 => simp [Char.ofNatAux, Char.toNat, UInt32.toNat]

theorem ofNat_ne_null {n : Nat} (h0 : 0 < n) (hv : n.isValidChar) :
    Char.ofNat n ≠ Char.ofNat 0 := by
  intro he
  have h2 := toNat_ofNat_valid hv
  rw [he] at h2
  have h3 : (Char.ofNat 0).toNat = 0 := rfl
  omega

theorem repl_ne_null : repl ≠ Char.ofNat 0 := by decide

theorem ofNat_ascii_ne_null {b : Nat} (h : b < 0x80) (hb : b ≠ 0) :
    Char.ofNat b ≠ Char.ofNat 0 :=
  ofNat_ne_null (by omega) (by unfold Nat.isValidChar; omega)

theorem ofNat_two_ne_null {b b1 : Nat} (h2 : ¬ b < 0xC2) (h3 : b ≤ 0xDF)
    (hc : isCont b1 = true) :
    Char.ofNat ((b - 0xC0) * 0x40 + (b1 - 0x80)) ≠ Char.ofNat 0 := by
  simp [isCont] at hc
  exact ofNat_ne_null (by omega) (by unfold Nat.isValidChar; omega)

theorem ofNat_three_ne_null {b b1 b2 : Nat} (h3 : ¬ b ≤ 0xDF) (h4 : b ≤ 0xEF)
    (hc : cont3 b b1 = true) (hc2 : isCont b2 = true) :
    Char.ofNat ((b - 0xE0) * 0x1000 + (b1 - 0x80) * 0x40 + (b2 - 0x80)) ≠
      Char.ofNat 0 := by
  simp [cont3, isCont] at hc
  simp [isCont] at hc2
  exact ofNat_ne_null (by omega) (by unfold Nat.isValidChar; omega)

theorem ofNat_four_ne_null {b b1 b2 b3 : Nat} (h4 : ¬ b ≤ 0xEF) (h5 : b ≤ 0xF4)
    (hc : cont4 b b1 = true) (hc2 : isCont b2 = true) (hc3 : isCont b3 = true) :
    Char.ofNat ((b - 0xF0) * 0x40000 + (b1 - 0x80) * 0x1000 +
        (b2 - 0x80) * 0x40 + (b3 - 0x80)) ≠ Char.ofNat 0 := by
  simp [cont4, isCont] at hc
  simp [isCont] at hc2 hc3
  exact ofNat_ne_null (by omega) (by unfold Nat.isValidChar; omega)

set_option maxRecDepth 4000 in
/-- A byte list without a null byte decodes to a string without a null
character: the all-zero case can only arise from an actual `0` input byte
(overlong encodings of U+0000 are rejected as invalid). -/
theorem utf8Lossy_ne_null (l : List Nat) :
    0 ∉ l → ∀ c ∈ utf8Lossy l, c ≠ Char.ofNat 0 := by
  induction l using utf8Lossy.induct with
  | case1 => simp [utf8Lossy_nil]
  | case2 b rest h ih =>
    intro h0 c hc
    rw [utf8Lossy_ascii b rest h] at hc
    simp only [List.mem_cons] at hc h0
    push_neg at h0
    rcases hc with rfl | hc
    · exact ofNat_ascii_ne_null h (by omega)
    · exact ih h0.2 c hc
  | case3 b rest h1 h2 ih =>
    intro h0 c hc
    rw [utf8Lossy_badByte b rest h1 h2] at hc
    simp only [List.mem_cons] at hc h0
    push_neg at h0
    rcases hc with rfl | hc
    · exact repl_ne_null
    · exact ih h0.2 c hc
  | case4 b h1 h2 h3 =>
    intro h0 c hc
    rw [utf8Lossy_two_nil b h1 h2 h3] at hc
    simp only [List.mem_singleton] at hc
    subst hc
    exact repl_ne_null
  | case5 b h1 h2 h3 b1 rest1 hc ih =>
    intro h0 c hmem
    rw [utf8Lossy_two_ok b b1 rest1 h1 h2 h3 hc] at hmem
    simp only [List.mem_cons] at hmem h0
    push_neg at h0
    rcases hmem with rfl | hmem
    · exact ofNat_two_ne_null h2 h3 hc
    · exact ih h0.2.2 c hmem
  | case6 b h1 h2 h3 b1 rest1 hc ih =>
    intro h0 c hmem
    rw [utf8Lossy_two_bad b b1 rest1 h1 h2 h3 hc] at hmem
    simp only [List.mem_cons] at hmem h0
    push_neg at h0
    rcases hmem with rfl | hmem
    · exact repl_ne_null
    · exact ih (by simp only [List.mem_cons]; push_neg; exact h0.2) c hmem
  | case7 b h1 h2 h3 h4 =>
    intro h0 c hc
    rw [utf8Lossy_three_nil b h1 h2 h3 h4] at hc
    simp only [List.mem_singleton] at hc
    subst hc
    exact repl_ne_null
  | case8 b h1 h2 h3 h4 b1 hc =>
    intro h0 c hmem
    rw [utf8Lossy_three_one b b1 h1 h2 h3 h4 hc] at hmem
    simp only [List.mem_singleton] at hmem
    subst hmem
    exact repl_ne_null
  | case9 b h1 h2 h3 h4 b1 hc b2 rest1 hc2 ih =>
    intro h0 c hmem
    rw [utf8Lossy_three_ok b b1 b2 rest1 h1 h2 h3 h4 hc hc2] at hmem
    simp only [List.mem_cons] at hmem h0
    push_neg at h0
    rcases hmem with rfl | hmem
    · exact ofNat_three_ne_null h3 h4 hc hc2
    · exact ih h0.2.2.2 c hmem
  | case10 b h1 h2 h3 h4 b1 hc b2 rest1 hc2 ih =>
    intro h0 c hmem
    rw [utf8Lossy_three_bad2 b b1 b2 rest1 h1 h2 h3 h4 hc hc2] at hmem
    simp only [List.mem_cons] at hmem h0
    push_neg at h0
    rcases hmem with rfl | hmem
    · exact repl_ne_null
    · exact ih (by simp only [List.mem_cons]; push_neg; exact h0.2.2) c hmem
  | case11 b h1 h2 h3 h4 b1 rest1 hc ih =>
    intro h0 c hmem
    rw [utf8Lossy_three_bad1 b b1 rest1 h1 h2 h3 h4 hc] at hmem
    simp only [List.mem_cons] at hmem h0
    push_neg at h0
    rcases hmem with rfl | hmem
    · exact repl_ne_null
    · exact ih (by simp only [List.mem_cons]; push_neg; exact h0.2) c hmem
  | case12 b h1 h2 h3 h4 h5 =>
    intro h0 c hc
    rw [utf8Lossy_four_nil b h1 h2 h3 h4 h5] at hc
    simp only [List.mem_singleton] at hc
    subst hc
    exact repl_ne_null
  | case13 b h1 h2 h3 h4 h5 b1 hc =>
    intro h0 c hmem
    rw [utf8Lossy_four_one b b1 h1 h2 h3 h4 h5 hc] at hmem
    simp only [List.mem_singleton] at hmem
    subst hmem
    exact repl_ne_null
  | case14 b h1 h2 h3 h4 h5 b1 hc b2 hc2 =>
    intro h0 c hmem
    rw [utf8Lossy_four_two b b1 b2 h1 h2 h3 h4 h5 hc hc2] at hmem
    simp only [List.mem_singleton] at hmem
    subst hmem
    exact repl_ne_null
  | case15 b h1 h2 h3 h4 h5 b1 hc b2 hc2 b3 rest1 hc3 ih =>
    intro h0 c hmem
    rw [utf8Lossy_four_ok b b1 b2 b3 rest1 h1 h2 h3 h4 h5 hc hc2 hc3] at hmem
    simp only [List.mem_cons] at hmem h0
    push_neg at h0
    rcases hmem with rfl | hmem
    · exact ofNat_four_ne_null h4 h5 hc hc2 hc3
    · exact ih h0.2.2.2.2 c hmem
  | case16 b h1 h2 h3 h4 h5 b1 hc b2 hc2 b3 rest1 hc3 ih =>
    intro h0 c hmem
    rw [utf8Lossy_four_bad3 b b1 b2 b3 rest1 h1 h2 h3 h4 h5 hc hc2 hc3] at hmem
    simp only [List.mem_cons] at hmem h0
    push_neg at h0
    rcases hmem with rfl | hmem
    · exact repl_ne_null
    · exact ih (by simp only [List.mem_cons]; push_neg; exact h0.2.2.2) c hmem
  | case17 b h1 h2 h3 h4 h5 b1 hc b2 rest1 hc2 ih =>
    intro h0 c hmem
    rw [utf8Lossy_four_bad2 b b1 b2 rest1 h1 h2 h3 h4 h5 hc hc2] at hmem
    simp only [List.mem_cons] at hmem h0
    push_neg at h0
    rcases hmem with rfl | hmem
    · exact repl_ne_null
    · exact ih (by simp only [List.mem_cons]; push_neg; exact h0.2.2) c hmem
  | case18 b h1 h2 h3 h4 h5 b1 rest1 hc ih =>
    intro h0 c hmem
    rw [utf8Lossy_four_bad1 b b1 rest1 h1 h2 h3 h4 h5 hc] at hmem
    simp only [List.mem_cons] at hmem h0
    push_neg at h0
    rcases hmem with rfl | hmem
    · exact repl_ne_null
    · exact ih (by simp only [List.mem_cons]; push_neg; exact h0.2) c hmem
  | case19 b rest h1 h2 h3 h4 h5 ih =>
    intro h0 c hmem
    rw [utf8Lossy_tooBig b rest h1 h2 h3 h4 h5] at hmem
    simp only [List.mem_cons] at hmem h0
    push_neg at h0
    rcases hmem with rfl | hmem
    · exact repl_ne_null
    · exact ih h0.2 c hmem

/-! ## Substring containment and buffer helpers -/

theorem startsWith_self_append (n b : List Char) : startsWith n (n ++ b) = true := by
  induction n with
  | nil => rfl
  | cons a as ih => simp [startsWith, ih]

theorem containsSub_of_startsWith {n h : List Char} (hs : startsWith n h = true) :
    containsSub n h = true := by
  cases h with
  | nil =>
    cases n with
    | nil => rfl
    | cons a as => simp [startsWith] at hs
  | cons x xs => simp [containsSub, hs]

theorem containsSub_self_append (n b : List Char) : containsSub n (n ++ b) = true :=
  containsSub_of_startsWith (startsWith_self_append n b)

theorem containsSub_middle (a n b : List Char) : containsSub n (a ++ n ++ b) = true := by
  induction a with
  | nil => simpa using containsSub_self_append n b
  | cons x xs ih =>
    simp only [List.cons_append, containsSub, Bool.or_eq_true]
    right
    simpa [List.append_assoc] using ih

/-- Any string of the form `a ++ n ++ b` contains `n` verbatim. -/
theorem strContains_middle (a n b : String) : strContains (a ++ n ++ b) n = true := by
  have : (a ++ n ++ b).data = a.data ++ n.data ++ b.data := by
    simp [String.data_append]
  rw [strContains, this]
  exact containsSub_middle a.data n.data b.data

/-- A string known to decompose as `a ++ n ++ b` contains `n`. -/
theorem strContains_of_eq (hay a n b : String) (h : hay = a ++ n ++ b) :
    strContains hay n = true := by
  rw [h]
  exact strContains_middle a n b

/-- Before the first index satisfying the predicate, the predicate is false:
the bytes kept by the truncation contain no null. -/
theorem zero_not_mem_take {l : List Nat} {p : Nat}
    (h : List.findIdx? (fun b => b == 0) l = some p) : 0 ∉ l.take p := by
  rw [List.findIdx?_eq_some_iff_findIdx_eq] at h
  intro hm
  rcases List.mem_iff_getElem.mp hm with ⟨i, hi, hgi⟩
  have hil : i < l.length := by simp [List.length_take] at hi; omega
  have hlt : i < List.findIdx (fun b => b == 0) l := by
    rw [h.2]; simp [List.length_take] at hi; omega
  have hfalse := List.not_of_lt_findIdx hlt
  rw [List.getElem_take] at hgi
  rw [hgi] at hfalse
  simp at hfalse

/-- When the scan finds no null byte, the buffer contains none. -/
theorem zero_not_mem_of_findIdx?_none {l : List Nat}
    (h : List.findIdx? (fun b => b == 0) l = none) : 0 ∉ l := by
  rw [List.findIdx?_eq_none_iff] at h
  intro hm
  have := h 0 hm
  simp at this

/-- Pure-ASCII input decodes one character per byte. -/
theorem utf8Lossy_ascii_length (l : List Nat) (h : ∀ b ∈ l, b < 0x80) :
    (utf8Lossy l).length = l.length := by
  induction l with
  | nil => simp [utf8Lossy_nil]
  | cons b rest ih =>
    rw [utf8Lossy_ascii b rest (h b (List.mem_cons_self b rest))]
    simp only [List.length_cons]
    rw [ih (fun x hx => h x (List.mem_cons_of_mem b hx))]

/-! ## Properties of the property readers and the enumeration loop -/

/-- Unfolding of `get_fname`: the OS outcome decides between `Ok(None)` and the
truncate-then-decode success path. -/
theorem get_fname_eq (call : PropCall) :
    get_fname call =
      match call (List.replicate 256 0) with
      | none => .ok none
      | some buf =>
        .ok (some (String.mk (utf8Lossy
          (match buf.findIdx? (fun b => b == 0) with
           | some nullPos => buf.take nullPos
           | none => buf)))) := rfl

/-- Unfolding of `get_desc`, identical to that of `get_fname`. -/
theorem get_desc_eq (call : PropCall) :
    get_desc call =
      match call (List.replicate 256 0) with
      | none => .ok none
      | some buf =>
        .ok (some (String.mk (utf8Lossy
          (match buf.findIdx? (fun b => b == 0) with
           | some nullPos => buf.take nullPos
           | none => buf)))) := rfl

theorem get_fname_isOk (call : PropCall) : ∃ v, get_fname call = Except.ok v := by
  rw [get_fname_eq]
  rcases h : call (List.replicate 256 0) with _ | buf <;> exact ⟨_, rfl⟩

theorem get_desc_isOk (call : PropCall) : ∃ v, get_desc call = Except.ok v := by
  rw [get_desc_eq]
  rcases h : call (List.replicate 256 0) with _ | buf <;> exact ⟨_, rfl⟩

theorem enumLoop_cons_ok (g : Nat) (fc dc : PropCall) (rest : List EnumStep) :
    enumLoop (.ok g fc dc :: rest) =
      (enumLoop rest).map (fun pr =>
        (pr.1, (WinDev.display ⟨getOk (get_fname fc), getOk (get_desc dc), g⟩) :: pr.2)) := by
  obtain ⟨f, hf⟩ := get_fname_isOk fc
  obtain ⟨d, hd⟩ := get_desc_isOk dc
  rw [enumLoop, hf, hd]
  cases he : enumLoop rest with
  | none => rfl
  | some pr => obtain ⟨c, o⟩ := pr; rfl

theorem enumLoop_code (steps : List EnumStep) :
    ∀ c out, enumLoop steps = some (c, out) → (c = 0 ↔ loopExhausts steps = true) := by
  induction steps with
  | nil => intro c out h; simp [enumLoop] at h
  | cons s rest ih =>
    cases s with
    | err m =>
      intro c out h
      by_cases hm : strContains m sentinel = true
      · simp [enumLoop, hm] at h
        simp [loopExhausts, hm, ← h.1]
      · simp [enumLoop, hm] at h
        simp [loopExhausts, hm, ← h.1]
    | ok g fc dc =>
      intro c out h
      rw [enumLoop_cons_ok] at h
      cases he : enumLoop rest with
      | none => rw [he] at h; simp at h
      | some pr =>
        obtain ⟨pc, po⟩ := pr
        rw [he, Option.map_some'] at h
        injection h with h
        injection h with h1 h2
        subst h1
        simp only [loopExhausts]
        exact ih pc po (by rw [he])

theorem enumLoop_err (steps : List EnumStep) (msg : String) :
    firstErr steps = some msg → strContains msg sentinel = false →
    ∃ out, enumLoop steps = some (1, out) ∧ ("Error occurred: " ++ msg) ∈ out := by
  induction steps with
  | nil => intro h _; simp [firstErr] at h
  | cons s rest ih =>
    cases s with
    | err m =>
      intro h hs
      simp only [firstErr, Option.some.injEq] at h
      subst h
      exact ⟨["Error occurred: " ++ m], by simp [enumLoop, hs], by simp⟩
    | ok g fc dc =>
      intro h hs
      simp only [firstErr] at h
      obtain ⟨out, hout, hmem⟩ := ih h hs
      refine ⟨(WinDev.display ⟨getOk (get_fname fc), getOk (get_desc dc), g⟩) :: out, ?_, ?_⟩
      · rw [enumLoop_cons_ok, hout]; rfl
      · exact List.mem_cons_of_mem _ hmem

theorem enumLoop_exhausts (steps : List EnumStep) :
    loopExhausts steps = true → ∃ out, enumLoop steps = some (0, out) := by
  induction steps with
  | nil => intro h; simp [loopExhausts] at h
  | cons s rest ih =>
    cases s with
    | err m =>
      intro h
      simp only [loopExhausts] at h
      exact ⟨[], by simp [enumLoop, h]⟩
    | ok g fc dc =>
      intro h
      simp only [loopExhausts] at h
      obtain ⟨out, hout⟩ := ih h
      exact ⟨_, by rw [enumLoop_cons_ok, hout]; rfl⟩

theorem loopExhausts_iff (steps : List EnumStep) :
    loopExhausts steps = true ↔
      ∃ msg, firstErr steps = some msg ∧ strContains msg sentinel = true := by
  induction steps with
  | nil => simp [loopExhausts, firstErr]
  | cons s rest ih =>
    cases s with
    | err m => simp [loopExhausts, firstErr]
    | ok g fc dc => simpa [loopExhausts, firstErr] using ih

/-! ## Claim theorems -/

/-- C1: in the enumeration loop, the exhaustion sentinel is distinguished from
every other enumeration error solely by matching the encoded status code
`0x80070103` in the error's rendered message; only that sentinel finishes the
loop with exit status 0, and every other enumeration error prints an
`Error occurred:` diagnostic and terminates with exit status 1. -/
theorem c1_sentinel_discrimination (steps : List EnumStep) :
    (∀ c out, enumLoop steps = some (c, out) →
      (c = 0 ↔ ∃ msg, firstErr steps = some msg ∧ strContains msg sentinel = true)) ∧
    (∀ msg, firstErr steps = some msg → strContains msg sentinel = false →
      ∃ out, enumLoop steps = some (1, out) ∧ ("Error occurred: " ++ msg) ∈ out) := by
  constructor
  · intro c out h
    rw [enumLoop_code steps c out h]
    exact loopExhausts_iff steps
  · exact enumLoop_err steps

/-- Witness for C1 at concrete enumeration outcomes: a sentinel-bearing error
message yields exit 0, a non-sentinel error yields exit 1 with a diagnostic. -/
theorem c1_sentinel_discrimination_witness :
    ((0 : Nat) = 0 ↔ ∃ msg,
      firstErr [EnumStep.err "The operation completed. (0x80070103)"] = some msg ∧
      strContains msg sentinel = true) ∧
    (∃ out, enumLoop [EnumStep.err "Access denied. (0x80070005)"] = some (1, out) ∧
      ("Error occurred: " ++ "Access denied. (0x80070005)") ∈ out) :=
  ⟨(c1_sentinel_discrimination [EnumStep.err "The operation completed. (0x80070103)"]).1
      0 [] (by decide),
   (c1_sentinel_discrimination [EnumStep.err "Access denied. (0x80070005)"]).2
      "Access denied. (0x80070005)" rfl (by decide)⟩

/-- C2: for both property kinds, a failing OS property query makes the reader
return `Ok(None)`, and the readers never return an error value at all, so a
property-query failure cannot terminate the program. -/
theorem c2_property_failure_absorbed (call : PropCall) :
    (call (List.replicate 256 0) = none →
      get_fname call = Except.ok none ∧ get_desc call = Except.ok none) ∧
    (∃ v, get_fname call = Except.ok v) ∧
    (∃ v, get_desc call = Except.ok v) := by
  refine ⟨?_, get_fname_isOk call, get_desc_isOk call⟩
  intro h
  rw [get_fname_eq, get_desc_eq, h]
  exact ⟨rfl, rfl⟩

/-- Witness for C2 at the always-failing oracle. -/
theorem c2_property_failure_absorbed_witness :
    get_fname (fun _ => none) = Except.ok none ∧
    get_desc (fun _ => none) = Except.ok none :=
  (c2_property_failure_absorbed (fun _ => none)).1 rfl

/-- C3 counterexample: the record `{fname. none, desc. none, guid. 0}` does
NOT render the literal placeholder `"Unknown"` anywhere — the source spells
the placeholder `"Unkown"` — so the claimed output is not produced. -/
theorem c3_unknown_placeholder_counterexample :
    strContains (WinDev.display ⟨none, none, 0⟩) "Unknown" = false ∧
    WinDev.display ⟨none, none, 0⟩ ≠
      "---------------------------\nDev Name: Unknown\nDev Desc: None\nGUID: 0\nGUID (hex): 0x0\n---------------------------" := by
  constructor
  · decide
  · decide

/-- C3 amended: formatting `{fname. none, desc. none, guid. 0}` renders the
literal placeholder `"Unkown"` (the source's spelling) for the name, the
literal placeholder `"None"` for the description, and the identifier as
decimal `0` and hexadecimal `0x0`. -/
theorem c3_placeholders_amended :
    WinDev.display ⟨none, none, 0⟩ =
      "---------------------------\nDev Name: Unkown\nDev Desc: None\nGUID: 0\nGUID (hex): 0x0\n---------------------------" := by
  decide

/-- C4 counterexample: with a token acquired (handle 5, elevation read 1) and
a failing `CloseHandle`, the privilege check returns an error to its caller
through the `?` operator — it does not return a boolean. -/
theorem c4_never_fails_counterexample :
    (is_root ⟨some 5, some 1, false⟩).1 = Except.error "error closing handle" :=
  rfl

/-- C4 amended: the privilege check returns a boolean on every input except
when releasing a successfully acquired token handle fails, in which case it
returns the release error to its caller. -/
theorem c4_never_fails_amended (o : TokenOracle) :
    (o.closeOk = true ∨ o.openToken = none → ∃ b, (is_root o).1 = Except.ok b) ∧
    (∀ h, o.openToken = some h → h ≠ invalidHandleValue → o.closeOk = false →
      (is_root o).1 = Except.error "error closing handle") := by
  obtain ⟨ot, ti, cl⟩ := o
  constructor
  · rintro (hcl | hot)
    · subst hcl
      cases ot with
      | none => exact ⟨false, rfl⟩
      | some t =>
        by_cases ht : t = invalidHandleValue <;> simp [is_root, ht]
    · simp only at hot
      subst hot
      exact ⟨false, rfl⟩
  · intro h hot hinv hcl
    simp only at hot hcl
    subst hot
    subst hcl
    simp [is_root, hinv]

/-- Witness for C4-amended: a succeeding release yields a boolean, a failing
release on an acquired valid handle yields the error. -/
theorem c4_never_fails_amended_witness :
    (∃ b, (is_root ⟨some 5, some 1, true⟩).1 = Except.ok b) ∧
    (is_root ⟨some 5, some 1, false⟩).1 = Except.error "error closing handle" :=
  ⟨(c4_never_fails_amended ⟨some 5, some 1, true⟩).1 (Or.inl rfl),
   (c4_never_fails_amended ⟨some 5, some 1, false⟩).2 5 rfl (by decide) rfl⟩

/-- C5: when token acquisition fails the privilege check returns `Ok(false)`
without raising and without any release call; and when a (valid) token handle
was acquired, `CloseHandle` is invoked on it exactly once before returning,
whichever way the elevation query and the release went. -/
theorem c5_token_release (o : TokenOracle) :
    (o.openToken = none → is_root o = (Except.ok false, [])) ∧
    (∀ h, o.openToken = some h → h ≠ invalidHandleValue → (is_root o).2 = [h]) := by
  obtain ⟨ot, ti, cl⟩ := o
  constructor
  · intro hot
    simp only at hot
    subst hot
    rfl
  · intro h hot hinv
    simp only at hot
    subst hot
    cases cl <;> simp [is_root, hinv]

/-- Witness for C5: acquisition failure returns `Ok(false)` with no release;
an acquired handle 5 is released exactly once even when the query fails and
the release itself fails. -/
theorem c5_token_release_witness :
    is_root ⟨none, some 1, true⟩ = (Except.ok false, []) ∧
    (is_root ⟨some 5, none, false⟩).2 = [5] :=
  ⟨(c5_token_release ⟨none, some 1, true⟩).1 rfl,
   (c5_token_release ⟨some 5, none, false⟩).2 5 rfl (by decide)⟩

/-- C6: the process exit code is 0 exactly when enumeration ran to
exhaustion (OS matched, privileges elevated, snapshot valid, sentinel hit),
and it is 1 on a non-matching OS, on missing elevation, on a snapshot error
or invalid snapshot handle, and on a non-sentinel enumeration error. -/
theorem c6_exit_codes (env : MainEnv) :
    (∀ c out, main env = some (c, out) →
      (c = 0 ↔ env.os = "windows" ∧ (is_root env.root).1 = Except.ok true ∧
        (∃ hd, env.snapshot = Except.ok hd ∧ hd ≠ invalidHandleValue) ∧
        loopExhausts env.steps = true)) ∧
    (env.os ≠ "windows" → main env = some (1, ["OS isn't windows!"])) ∧
    ((is_root env.root).1 = Except.ok false → env.os = "windows" →
      main env = some (1, ["This program needs root priviledges"])) ∧
    (∀ e, env.snapshot = Except.error e → env.os = "windows" →
      (is_root env.root).1 = Except.ok true → main env = some (1, [])) ∧
    (env.snapshot = Except.ok invalidHandleValue → env.os = "windows" →
      (is_root env.root).1 = Except.ok true →
      main env = some (1, ["Failed to get device list"])) ∧
    (∀ msg, env.os = "windows" → (is_root env.root).1 = Except.ok true →
      (∃ hd, env.snapshot = Except.ok hd ∧ hd ≠ invalidHandleValue) →
      firstErr env.steps = some msg → strContains msg sentinel = false →
      ∃ out, main env = some (1, out)) := by
  obtain ⟨os, root, snap, steps⟩ := env
  refine ⟨?_, ?_, ?_, ?_, ?_, ?_⟩
  · intro c out h
    dsimp only at *
    by_cases hos : os = "windows"
    · rcases hr : (is_root root).1 with e | elv
      · simp [main, hos, hr] at h
        simp [hos, hr, h.1.symm]
      · cases elv
        · simp [main, hos, hr] at h
          simp [hos, hr, h.1.symm]
        · rcases hs : snap with e | hd
          · simp [main, hos, hr, hs] at h
            simp [hos, hr, hs, h.1.symm]
          · by_cases hh : hd = invalidHandleValue
            · subst hh
              simp [main, hos, hr, hs] at h
              simp [hos, hr, hs, h.1.symm]
            · have hmain : enumLoop steps = some (c, out) := by
                simpa [main, hos, hr, hs, hh] using h
              rw [enumLoop_code steps c out hmain]
              simp [hos, hr, hs, hh]
    · simp [main, hos] at h
      simp [hos, h.1.symm]
  · intro hos
    dsimp only at *
    simp [main, hos]
  · intro hr hos
    dsimp only at *
    simp [main, hos, hr]
  · intro e hs hos hr
    dsimp only at *
    simp [main, hos, hr, hs]
  · intro hs hos hr
    dsimp only at *
    simp [main, hos, hr, hs]
  · intro msg hos hr hex hfe hnot
    obtain ⟨hd, hs, hh⟩ := hex
    dsimp only at *
    obtain ⟨out, hout, hmem⟩ := enumLoop_err steps msg hfe hnot
    exact ⟨out, by simp [main, hos, hr, hs, hh, hout]⟩

/-- Witness for C6 at a concrete run: matching OS, elevated token, valid
snapshot handle 3, and a sentinel-bearing enumeration error give exit 0. -/
theorem c6_exit_codes_witness :
    ((0 : Nat) = 0 ↔
      (MainEnv.mk "windows" ⟨some 5, some 1, true⟩ (Except.ok 3)
          [EnumStep.err "no more items (0x80070103)"]).os = "windows" ∧
      (is_root (MainEnv.mk "windows" ⟨some 5, some 1, true⟩ (Except.ok 3)
          [EnumStep.err "no more items (0x80070103)"]).root).1 = Except.ok true ∧
      (∃ hd, (MainEnv.mk "windows" ⟨some 5, some 1, true⟩ (Except.ok 3)
          [EnumStep.err "no more items (0x80070103)"]).snapshot = Except.ok hd ∧
        hd ≠ invalidHandleValue) ∧
      loopExhausts (MainEnv.mk "windows" ⟨some 5, some 1, true⟩ (Except.ok 3)
          [EnumStep.err "no more items (0x80070103)"]).steps = true) :=
  (c6_exit_codes (MainEnv.mk "windows" ⟨some 5, some 1, true⟩ (Except.ok 3)
      [EnumStep.err "no more items (0x80070103)"])).1 0 [] (by decide)

/-- C7: a successfully filled buffer with its first null byte at position `p`
is truncated at `p` before lossy decoding, so the decoded string has at most
`p` characters and contains no null character, for both property readers. -/
theorem c7_null_truncation (call : PropCall) (buf : List Nat) (p : Nat)
    (hc : call (List.replicate 256 0) = some buf)
    (hp : List.findIdx? (fun b => b == 0) buf = some p) :
    ∃ s, get_fname call = Except.ok (some s) ∧ get_desc call = Except.ok (some s) ∧
      s.length ≤ p ∧ ∀ c ∈ s.data, c ≠ Char.ofNat 0 := by
  refine ⟨String.mk (utf8Lossy (buf.take p)), ?_, ?_, ?_, ?_⟩
  · simp only [get_fname_eq, hc, hp]
  · simp only [get_desc_eq, hc, hp]
  · show (utf8Lossy (buf.take p)).length ≤ p
    have h1 := utf8Lossy_length (buf.take p)
    have h2 : (buf.take p).length ≤ p := by
      rw [List.length_take]; omega
    omega
  · exact utf8Lossy_ne_null (buf.take p) (zero_not_mem_take hp)

/-- Witness for C7 at a concrete filled buffer with the first null at
position 2. -/
theorem c7_null_truncation_witness :
    ∃ s, get_fname (fun _ => some [68, 105, 0, 33]) = Except.ok (some s) ∧
      get_desc (fun _ => some [68, 105, 0, 33]) = Except.ok (some s) ∧
      s.length ≤ 2 ∧ ∀ c ∈ s.data, c ≠ Char.ofNat 0 :=
  c7_null_truncation (fun _ => some [68, 105, 0, 33]) [68, 105, 0, 33] 2 rfl (by decide)

/-- C8: names and descriptions are embedded in the formatted block verbatim,
with no escaping; the concrete disk-drive record renders exactly the expected
block with the matching decimal/hexadecimal identifier pair. -/
theorem c8_verbatim_rendering (n d : String) (g : Nat) :
    strContains (WinDev.display ⟨some n, some d, g⟩) n = true ∧
    strContains (WinDev.display ⟨some n, some d, g⟩) d = true ∧
    WinDev.display ⟨some "Disk drive", some "Standard disk drives",
        0x4d36e967e32511cebfc108002be10318⟩ =
      "---------------------------\nDev Name: Disk drive\nDev Desc: Standard disk drives\nGUID: 102635673738035704292817236064645219096\nGUID (hex): 0x4d36e967e32511cebfc108002be10318\n---------------------------" := by
  refine ⟨?_, ?_, ?_⟩
  · exact strContains_of_eq _ "---------------------------\nDev Name: " n
      ("\nDev Desc: " ++ d ++ "\nGUID: " ++ Nat.repr g ++ "\nGUID (hex): " ++
        hexFmt g ++ "\n---------------------------")
      (by simp [WinDev.display, String.append_assoc])
  · exact strContains_of_eq _
      ("---------------------------\nDev Name: " ++ n ++ "\nDev Desc: ") d
      ("\nGUID: " ++ Nat.repr g ++ "\nGUID (hex): " ++ hexFmt g ++
        "\n---------------------------")
      (by simp [WinDev.display, String.append_assoc])
  · rfl

/-- C9: the two property readers compute the same function of the OS
response: same 256-byte zeroed allocation, same first-null truncation, same
lossy decoding, equal results. -/
theorem c9_readers_equal : ∀ call : PropCall, get_fname call = get_desc call :=
  fun _ => rfl

/-- C10: a successfully filled buffer containing no null byte is not
truncated: the reader returns the lossy decoding of the whole buffer, whose
length is bounded by the 256-byte buffer length and reaches 256 for an
all-ASCII buffer. -/
theorem c10_no_null_whole_buffer (call : PropCall) (buf : List Nat)
    (hc : call (List.replicate 256 0) = some buf)
    (hn : List.findIdx? (fun b => b == 0) buf = none) :
    get_fname call = Except.ok (some (String.mk (utf8Lossy buf))) ∧
    get_desc call = Except.ok (some (String.mk (utf8Lossy buf))) ∧
    (buf.length = 256 → (String.mk (utf8Lossy buf)).length ≤ 256) ∧
    (String.mk (utf8Lossy (List.replicate 256 97))).length = 256 := by
  refine ⟨?_, ?_, ?_, ?_⟩
  · simp only [get_fname_eq, hc, hn]
  · simp only [get_desc_eq, hc, hn]
  · intro h256
    show (utf8Lossy buf).length ≤ 256
    have := utf8Lossy_length buf
    omega
  · show (utf8Lossy (List.replicate 256 97)).length = 256
    rw [utf8Lossy_ascii_length]
    · exact List.length_replicate 256 97
    · intro b hb
      rw [List.eq_of_mem_replicate hb]
      omega

/-- Witness for C10 at the all-`'a'` 256-byte buffer: no truncation, and the
decoded string attains the full 256 characters. -/
theorem c10_no_null_whole_buffer_witness :
    get_fname (fun _ => some (List.replicate 256 97)) =
      Except.ok (some (String.mk (utf8Lossy (List.replicate 256 97)))) ∧
    get_desc (fun _ => some (List.replicate 256 97)) =
      Except.ok (some (String.mk (utf8Lossy (List.replicate 256 97)))) ∧
    (String.mk (utf8Lossy (List.replicate 256 97))).length ≤ 256 ∧
    (String.mk (utf8Lossy (List.replicate 256 97))).length = 256 :=
  have h := c10_no_null_whole_buffer (fun _ => some (List.replicate 256 97))
    (List.replicate 256 97) rfl
    (by
      rw [List.findIdx?_eq_none_iff]
      intro x hx
      rw [List.eq_of_mem_replicate hx]
      rfl)
  ⟨h.1, h.2.1, h.2.2.1 (List.length_replicate 256 97), h.2.2.2⟩

end PrintGuid
